import Mathlib

/-!
Verification of the collision-integral database manager
(src/src/transport/CollisionDBNew.cpp) against its specification.

Embedding conventions: a C++ std::string becomes a List Char; a double
becomes ℝ, except the tabulation bounds which become ℚ so that the
construction-time validation arithmetic is exact and decidable; the
std::map group cache becomes an association list with unique keys; an
out-of-bounds std::string or std::vector access (undefined behavior in
the source) surfaces as an Option none; exit(1) surfaces as a dedicated
fatal result constructor.  The thermodynamic state (m_thermo) is a
read-only external collaborator, so it is passed to each operation
explicitly, and the opaque per-pair collision-integral evaluator is a
function parameter eval taking the integral kind, the species pair and
a temperature.
-/

namespace CollisionDBNew

abbrev Name := List Char

/-- Modelled from the spec: the GroupType enumeration is declared in the
missing header CollisionDBNew.h.  Section 4.3 of the spec assigns the
electron temperature to the EE and EI groups and the heavy temperature to
II and IJ, which together with the comparison type < II in group() fixes
the declaration order EE, EI, II, IJ, BAD_TYPE. -/
inductive GroupType where
  | EE | EI | II | IJ | BAD_TYPE
deriving DecidableEq, Repr

/-- Numeric value of a GroupType enumerator, following the declaration
order above (used for the comparison type < II). -/
def GroupType.toNat : GroupType → Nat
  | .EE => 0 | .EI => 1 | .II => 2 | .IJ => 3 | .BAD_TYPE => 4

/-- C++ std::string indexing at a signed position: defined only inside the
bounds; an out-of-bounds access is undefined behavior, embedded as none. -/
def charAt (s : Name) (i : Int) : Option Char :=
  if 0 ≤ i then s[i.toNat]? else none

/-- CollisionDBNew::groupType (lines 107-119): inspects name[len-2] and
name[len-1].  For a name shorter than two characters one of these reads
is out of bounds, hence the Option layer. -/
def groupType (name : Name) : Option GroupType :=
  let len : Int := name.length
  match charAt name (len - 2), charAt name (len - 1) with
  | some c2, some c1 =>
    some (if c2 = 'e' then (if c1 = 'e' then .EE else if c1 = 'i' then .EI else .BAD_TYPE)
     else if c2 = 'i' then (if c1 = 'i' then .II else if c1 = 'j' then .IJ else .BAD_TYPE)
     else .BAD_TYPE)
  | _, _ => none

/-- Rows of the species-pair list from row i on, with r rows remaining
(the constructor loops at lines 81-83: for each first index i the inner
loop pushes (i, j) for j in [i, ns); the fuel r equals ns - i at every
call, so the inner row length ns - i matches the inner loop bound). -/
def pairsAux (ns : Nat) : Nat → Nat → List (Nat × Nat)
  | 0, _ => []
  | r + 1, i => ((List.range' i (ns - i)).map fun j => (i, j)) ++ pairsAux ns r (i + 1)

/-- m_pairs: the full triangular species-pair list (i, j), i ≤ j < ns,
outer index ascending, built by the constructor at lines 79-83. -/
def pairList (ns : Nat) : List (Nat × Nat) := pairsAux ns ns 0

/-- Index sequence of the II diagonal-collection loop (line 155):
for (i = 0, index = k; i < ns-e; index += ns-e-i, i++).  The fuel is the
remaining iteration count r = (ns-e) - i, so when r+1 iterations remain
the increment ns-e-i equals r+1. -/
def diagLoop : Nat → Nat → List Nat
  | 0, _ => []
  | r + 1, idx => idx :: diagLoop r (idx + (r + 1))

/-- Member-pair selection of group() on a cache miss (lines 140-159).
EE takes the first e pairs, EI the first e*ns pairs, IJ drops the first
e*ns pairs, and II materializes its own list of the heavy diagonal pairs
by indexing m_pairs at the positions produced by diagLoop (an index out
of range would be undefined behavior; get? makes the access explicit and
memberSelect_II below proves every access is in bounds).  The BAD_TYPE
case never selects members: group() exits first. -/
def memberSelect (ns : Nat) (hasE : Bool) : GroupType → List (Nat × Nat)
  | .EE => (pairList ns).take (if hasE then 1 else 0)
  | .EI => (pairList ns).take ((if hasE then 1 else 0) * ns)
  | .IJ => (pairList ns).drop ((if hasE then 1 else 0) * ns)
  | .II =>
      (diagLoop (ns - (if hasE then 1 else 0)) ((if hasE then 1 else 0) * ns)).filterMap
        fun idx => (pairList ns)[idx]?
  | .BAD_TYPE => []

/-- C++ cast of a double to int: truncation toward zero, i.e. the floor
for nonnegative values and the ceiling for negative ones (exact on ℚ). -/
def cppTrunc (q : ℚ) : Int := if 0 ≤ q then ⌊q⌋ else ⌈q⌉

/-- The constructor's tabulation checks (lines 68-77): every parseCheck
must hold for construction to proceed.  The final check compares the
grid span (Tmax - Tmin)/dT with its truncation toward zero at relative
tolerance 1e-15. -/
def tableChecks (tmin tmax tdel : ℚ) : Bool :=
  decide (0 < tmin) && decide (0 < tmax) && decide (0 < tdel) && decide (tmin < tmax) &&
    (let size := (tmax - tmin) / tdel
     decide (|size - (cppTrunc size : ℚ)| / size < 1 / 10 ^ 15))

/-- Whether CollisionDBNew construction passes its configuration
validation: the checks run only when tabulation is enabled (line 68). -/
def constructionOk (tabulate : Bool) (tmin tmax tdel : ℚ) : Bool :=
  if tabulate then tableChecks tmin tmax tdel else true

/-- Follows the spec's words, for comparison with the code: the grid span
is "a whole number within relative tolerance 1e-15", read as being within
that relative distance of some integer, and the configuration is invalid
when a bound is non-positive, the bounds are out of order, or the span is
not such a near-integer. -/
def specTableInvalid (tmin tmax tdel : ℚ) : Prop :=
  tmin ≤ 0 ∨ tmax ≤ 0 ∨ tdel ≤ 0 ∨ tmax ≤ tmin ∨
    ¬ ∃ n : ℤ, |(tmax - tmin) / tdel - (n : ℚ)| / ((tmax - tmin) / tdel) < 1 / 10 ^ 15

/-- The thermodynamic-state collaborator: species count, electron
presence, heavy and electron temperatures, and per-species molar mass. -/
structure Thermo where
  ns : Nat
  hasE : Bool
  T : ℝ
  Te : ℝ
  Mw : Nat → ℝ

/-- thermo.hasElectrons() ? 1 : 0, written e in group() (line 142). -/
def eNat (th : Thermo) : Nat := if th.hasE then 1 else 0

/-- thermo.nHeavy(): every species except the electron. -/
def nHeavy (th : Thermo) : Nat := th.ns - eNat th

/-- Evaluation temperature of a group (lines 132-133 and 173-174):
electron temperature when type < II in the enumeration order, heavy
temperature otherwise. -/
def tempFor (t : GroupType) (th : Thermo) : ℝ :=
  if t.toNat < GroupType.toNat .II then th.Te else th.T

/-- Modelled from the spec: class CollisionGroup is declared outside the
available source (CollisionGroup.h/.cpp are missing); section 3 of the
spec gives its state as the integral kind, the member pair list, the
tabulation settings it was created with, and the last-evaluated snapshot
(temperature and one value per member). -/
structure CollisionGroup where
  tabulate : Bool
  tmin : ℚ
  tmax : ℚ
  tdel : ℚ
  kind : Name
  members : List (Nat × Nat)
  lastT : ℝ
  values : List ℝ

/-- Modelled from the spec: CollisionGroup::update(T, thermo) (section
4.4; the class source is missing) recomputes the group, producing one
value per member pair from the opaque pair evaluator at the requested
temperature, and returns the group itself.  The tabulated path is an
internal optimization that the spec requires to agree with direct
evaluation, so update is embedded as direct evaluation. -/
def CollisionGroup.update (g : CollisionGroup) (T : ℝ)
    (eval : Name → Nat × Nat → ℝ → ℝ) : CollisionGroup :=
  { g with lastT := T, values := g.members.map fun p => eval g.kind p T }

/-- Mutable state of a CollisionDBNew object: the tabulation
configuration fixed at construction and the name-keyed group cache
m_groups (a std::map, embedded as an association list with unique keys;
m_pairs is the pure function pairList of the species count and is not
duplicated here). -/
structure DBState where
  tabulate : Bool
  tmin : ℚ
  tmax : ℚ
  tdel : ℚ
  groups : List (Name × CollisionGroup)

/-- m_groups.find(name). -/
def findGroup : List (Name × CollisionGroup) → Name → Option CollisionGroup
  | [], _ => none
  | (k, g) :: rest, n => if k = n then some g else findGroup rest n

/-- In-place overwrite of the cached group stored under a name (the
effect of mutating iter->second through the map iterator). -/
def setGroup : List (Name × CollisionGroup) → Name → CollisionGroup →
    List (Name × CollisionGroup)
  | [], _, _ => []
  | (k, g) :: rest, n, g2 => if k = n then (k, g2) :: rest else (k, g) :: setGroup rest n g2

/-- Outcome of group(): a reference to the cached group, or the fatal
diagnostic printed before exit(1) (the bad two-character suffix, the full
name it occurred in, and the allowed suffix set), or undefined behavior
from an out-of-bounds read in groupType. -/
inductive GroupResult where
  | ok (g : CollisionGroup)
  | fatal (badSuffix : Name) (inName : Name) (allowed : List Name)
  | undef

/-- The allowed group-type suffixes named by the diagnostic (line 164). -/
def allowedSuffixes : List Name := [['e', 'e'], ['e', 'i'], ['i', 'i'], ['i', 'j']]

/-- The group inserted by a cache miss before its first evaluation
(lines 136-170): constructed from the database's tabulation
configuration, then bound by manage to the members selected for its type
and to the kind prefix name.substr(0, len-2). -/
def newGroup (db : DBState) (th : Thermo) (name : Name) (t : GroupType) : CollisionGroup :=
  { tabulate := db.tabulate, tmin := db.tmin, tmax := db.tmax, tdel := db.tdel,
    kind := name.take (name.length - 2),
    members := memberSelect th.ns th.hasE t,
    lastT := 0, values := [] }

/-- CollisionDBNew::group (lines 124-175).  A cache hit re-evaluates the
stored group at the current appropriate temperature and returns it; a
cache miss with a valid type inserts the newGroup above, evaluates it
once and returns it; a miss with BAD_TYPE prints the diagnostic and
exits (the assert at line 128 is the release-build no-op).  m_thermo is
an external reference, so the current thermodynamic state is an
argument. -/
def group (db : DBState) (th : Thermo) (eval : Name → Nat × Nat → ℝ → ℝ)
    (name : Name) : GroupResult × DBState :=
  match groupType name with
  | none => (.undef, db)
  | some t =>
    match findGroup db.groups name with
    | some g =>
      let g2 := g.update (tempFor t th) eval
      (.ok g2, { db with groups := setGroup db.groups name g2 })
    | none =>
      if t = .BAD_TYPE then
        (.fatal (name.drop (name.length - 2)) name allowedSuffixes, db)
      else
        let g2 := (newGroup db th name t).update (tempFor t th) eval
        (.ok g2, { db with groups := db.groups ++ [(name, g2)] })

/-- m_etafac, filled by the constructor loop at lines 86-88: entry j
holds (5/16)*sqrt(PI*RU*Mw(j+k)) with k = nSpecies - nHeavy.  PI and RU
are the physical constants from the out-of-scope constants header, taken
as parameters. -/
noncomputable def etafacList (PI RU : ℝ) (th : Thermo) : List ℝ :=
  (List.range (nHeavy th)).map fun j =>
    5 / 16 * Real.sqrt (PI * RU * th.Mw (j + (th.ns - nHeavy th)))

/-- Value array carried by a group() result (empty on the fatal and
undefined outcomes, which do not return). -/
def groupValuesOf : GroupResult → List ℝ
  | .ok g => g.values
  | _ => []

/-- The name Q22ii. -/
def q22iiName : Name := ['Q', '2', '2', 'i', 'i']

/-- Modelled from the spec: the accessor Q22ii() is declared in the
missing header CollisionDBNew.h; per sections 4.5 and 8 it denotes the
value array of group with the name Q22ii. -/
def Q22ii (db : DBState) (th : Thermo) (eval : Name → Nat × Nat → ℝ → ℝ) : List ℝ :=
  groupValuesOf (group db th eval q22iiName).1

/-- CollisionDBNew::etai (lines 179-182): elementwise
sqrt(T) * m_etafac / Q22ii(). -/
noncomputable def etai (PI RU : ℝ) (db : DBState) (th : Thermo)
    (eval : Name → Nat × Nat → ℝ → ℝ) : List ℝ :=
  List.zipWith (fun f q => Real.sqrt th.T * f / q) (etafacList PI RU th) (Q22ii db th eval)

/-- CollisionDBNew::Dim (lines 202-205): m_Dim is assigned a zero array
of length nSpecies and returned; the database state is ignored. -/
def Dim (db : DBState) (th : Thermo) : List ℝ :=
  let _ := db
  List.replicate th.ns (0 : ℝ)

/-- Strict lexicographic order on species pairs: the enumeration order of
the pair list (outer index ascending, inner index ascending within a row). -/
def pairLt (p q : Nat × Nat) : Prop := p.1 < q.1 ∨ (p.1 = q.1 ∧ p.2 < q.2)

/-- What two successive group(name) calls guarantee for a valid name: the
first call returns the group cached under the name, evaluated at the
category temperature of the first thermodynamic state; the second call
returns that very entry re-evaluated at the category temperature of the
second state, with kind and members untouched, the cache key set
unchanged, and the value array recomputed from the pair evaluator at the
new temperature. -/
def cacheStableAt (db : DBState) (th1 th2 : Thermo) (eval : Name → Nat × Nat → ℝ → ℝ)
    (name : Name) (t : GroupType) : Prop :=
  ∃ g1 : CollisionGroup,
    (group db th1 eval name).1 = .ok g1 ∧
    findGroup (group db th1 eval name).2.groups name = some g1 ∧
    g1.lastT = tempFor t th1 ∧
    (group (group db th1 eval name).2 th2 eval name).1 = .ok (g1.update (tempFor t th2) eval) ∧
    findGroup (group (group db th1 eval name).2 th2 eval name).2.groups name =
      some (g1.update (tempFor t th2) eval) ∧
    (group (group db th1 eval name).2 th2 eval name).2.groups.map Prod.fst =
      (group db th1 eval name).2.groups.map Prod.fst ∧
    (g1.update (tempFor t th2) eval).kind = g1.kind ∧
    (g1.update (tempFor t th2) eval).members = g1.members ∧
    (g1.update (tempFor t th2) eval).values =
      g1.members.map (fun p => eval g1.kind p (tempFor t th2)) ∧
    tempFor t th1 = (if t = .EE ∨ t = .EI then th1.Te else th1.T) ∧
    tempFor t th2 = (if t = .EE ∨ t = .EI then th2.Te else th2.T)

/-- What a cache miss guarantees about member selection: the returned
group holds the members selected for its type, and the selection takes
the first e pairs for EE, the first e*ns pairs for EI, everything from
index e*ns on for IJ, and exactly the heavy diagonal pairs, ascending,
for II. -/
def memberSelectionAt (db : DBState) (th : Thermo) (eval : Name → Nat × Nat → ℝ → ℝ)
    (name : Name) (t : GroupType) : Prop :=
  (∃ g, (group db th eval name).1 = .ok g ∧ g.members = memberSelect th.ns th.hasE t) ∧
  memberSelect th.ns th.hasE .EE = (pairList th.ns).take (eNat th) ∧
  memberSelect th.ns th.hasE .EI = (pairList th.ns).take (eNat th * th.ns) ∧
  memberSelect th.ns th.hasE .IJ = (pairList th.ns).drop (eNat th * th.ns) ∧
  memberSelect th.ns th.hasE .II =
    (List.range' (eNat th) (th.ns - eNat th)).map fun i => (i, i)

/-- What etai computes: elementwise sqrt of the heavy temperature times
the precomputed eta factor divided by the Q22ii group value, with the
factors coming from the constructor formula on the molar masses and the
Q22ii values coming from the pair evaluator on the heavy diagonal at the
heavy temperature. -/
def etaiFormulaAt (PI RU : ℝ) (db : DBState) (th : Thermo)
    (eval : Name → Nat × Nat → ℝ → ℝ) : Prop :=
  etai PI RU db th eval =
    List.zipWith (fun f q => Real.sqrt th.T * f / q) (etafacList PI RU th) (Q22ii db th eval) ∧
  (∀ j, j < nHeavy th →
    (etafacList PI RU th)[j]? =
      some (5 / 16 * Real.sqrt (PI * RU * th.Mw (j + eNat th)))) ∧
  Q22ii db th eval =
    (List.range' (eNat th) (nHeavy th)).map fun i => eval ['Q', '2', '2'] (i, i) th.T

/-- A freshly constructed database state with the default tabulation
configuration and an empty group cache (used by the witnesses). -/
def db0 : DBState := { tabulate := true, tmin := 300, tmax := 20000, tdel := 100, groups := [] }

/-- A concrete thermodynamic state: three species with electrons. -/
def thW : Thermo := { ns := 3, hasE := true, T := 500, Te := 600, Mw := fun _ => 2 }

/-- The same mixture at different temperatures. -/
def thW2 : Thermo := { ns := 3, hasE := true, T := 800, Te := 900, Mw := fun _ => 2 }

/-- A concrete pair evaluator: the identity correlation Q(kind, T) = T. -/
def evalW : Name → Nat × Nat → ℝ → ℝ := fun _ _ T => T

/-- The concrete group name Q11ii. -/
def qiiName : Name := ['Q', '1', '1', 'i', 'i']

/-- A concrete group name with an unrecognized suffix. -/
def badName : Name := ['Q', 'x', 'y']

/-! Helper lemmas about the triangular pair enumeration. -/

lemma pairsAux_length (ns : Nat) :
    ∀ r i, i + r = ns → (pairsAux ns r i).length = r * (r + 1) / 2 := by
  intro r
  induction r with
  | zero => intro i h; simp [pairsAux]
  | succ r ih =>
    intro i h
    have hrow : ns - i = r + 1 := by omega
    have hx : r * (r + 1) / 2 * 2 = r * (r + 1) :=
      Nat.div_mul_cancel (Nat.even_mul_succ_self r).two_dvd
    have hy : (r + 1) * (r + 1 + 1) / 2 * 2 = (r + 1) * (r + 1 + 1) :=
      Nat.div_mul_cancel (Nat.even_mul_succ_self (r + 1)).two_dvd
    have hz : (r + 1) * (r + 1 + 1) = r * (r + 1) + 2 * (r + 1) := by ring
    simp only [pairsAux, List.length_append, List.length_map, List.length_range', hrow,
      ih (i + 1) (by omega)]
    omega

lemma pairsAux_mem (ns : Nat) :
    ∀ r i, i + r = ns →
      ∀ p : Nat × Nat, p ∈ pairsAux ns r i ↔ i ≤ p.1 ∧ p.1 ≤ p.2 ∧ p.2 < ns := by
  intro r
  induction r with
  | zero =>
    intro i h p
    simp only [pairsAux, List.not_mem_nil, false_iff]
    omega
  | succ r ih =>
    intro i h p
    obtain ⟨p1, p2⟩ := p
    simp only [pairsAux, List.mem_append, List.mem_map, List.mem_range'_1,
      ih (i + 1) (by omega), Prod.mk.injEq]
    constructor
    · rintro (⟨j, hj, rfl, rfl⟩ | hmem) <;> omega
    · intro hp
      by_cases hcase : p1 = i
      · subst hcase
        exact Or.inl ⟨p2, by omega, rfl, rfl⟩
      · exact Or.inr (by omega)

lemma pairsAux_pairwise (ns : Nat) :
    ∀ r i, i + r = ns → List.Pairwise pairLt (pairsAux ns r i) := by
  intro r
  induction r with
  | zero => intro i h; simp [pairsAux]
  | succ r ih =>
    intro i h
    rw [pairsAux, List.pairwise_append]
    refine ⟨?_, ih (i + 1) (by omega), ?_⟩
    · rw [List.pairwise_map]
      exact (List.pairwise_lt_range' ..).imp fun hab => Or.inr ⟨rfl, hab⟩
    · intro a ha b hb
      simp only [List.mem_map, List.mem_range'_1] at ha
      obtain ⟨j, _, rfl⟩ := ha
      have hbmem := (pairsAux_mem ns r (i + 1) (by omega) b).1 hb
      exact Or.inl (by omega)

lemma pairsAux_drop (ns r i : Nat) (_h : i + (r + 1) = ns) :
    (pairsAux ns (r + 1) i).drop (ns - i) = pairsAux ns r (i + 1) := by
  have hdl := List.drop_left ((List.range' i (ns - i)).map fun j => (i, j))
    (pairsAux ns r (i + 1))
  rw [List.length_map, List.length_range'] at hdl
  rw [pairsAux, hdl]

lemma pairsAux_head (ns r i : Nat) (h : i + (r + 1) = ns) :
    (pairsAux ns (r + 1) i)[0]? = some (i, i) := by
  have hr : ns - i = r + 1 := by omega
  rw [pairsAux, hr, List.range'_succ]
  simp

lemma diagLoop_spec (ns : Nat) :
    ∀ r i idx0, i + r = ns → (pairList ns).drop idx0 = pairsAux ns r i →
      (diagLoop r idx0).map (fun idx => (pairList ns)[idx]?) =
        (List.range' i r).map fun t => (some (t, t) : Option (Nat × Nat)) := by
  intro r
  induction r with
  | zero => intro i idx0 _ _; simp [diagLoop]
  | succ r ih =>
    intro i idx0 h hdrop
    rw [diagLoop, List.range'_succ, List.map_cons, List.map_cons]
    congr 1
    · have hidx : (pairList ns)[idx0 + 0]? = ((pairList ns).drop idx0)[0]? :=
        (List.getElem?_drop ..).symm
      rw [Nat.add_zero] at hidx
      rw [hidx, hdrop, pairsAux_head ns r i h]
    · refine ih (i + 1) (idx0 + (r + 1)) (by omega) ?_
      have hdd : (pairList ns).drop (idx0 + (r + 1)) =
          ((pairList ns).drop idx0).drop (r + 1) := by
        rw [List.drop_drop, Nat.add_comm]
      rw [hdd, hdrop]
      have hstep := pairsAux_drop ns r i h
      rwa [show ns - i = r + 1 by omega] at hstep

lemma filterMap_eq_of_map_some {α β : Type} (g : α → Option β) :
    ∀ (l : List α) (l2 : List β), l.map g = l2.map some → l.filterMap g = l2 := by
  intro l
  induction l with
  | nil => intro l2 h; cases l2 <;> simp_all
  | cons a l ih =>
    intro l2 h
    cases l2 with
    | nil => simp at h
    | cons b l2 =>
      simp only [List.map_cons, List.cons.injEq] at h
      rw [List.filterMap_cons, h.1]
      simp [ih l2 h.2]

lemma memberSelect_II (ns : Nat) (hasE : Bool) :
    memberSelect ns hasE .II =
      (List.range' (if hasE then 1 else 0) (ns - (if hasE then 1 else 0))).map
        fun i => (i, i) := by
  cases hasE with
  | false =>
    simp only [memberSelect, Bool.false_eq_true, if_false, Nat.sub_zero, Nat.zero_mul]
    refine filterMap_eq_of_map_some _ _ _ ?_
    rw [List.map_map]
    exact diagLoop_spec ns ns 0 0 (by omega) (by rw [List.drop_zero]; rfl)
  | true =>
    simp only [memberSelect, if_true, Nat.one_mul]
    cases ns with
    | zero => simp [diagLoop]
    | succ m =>
      refine filterMap_eq_of_map_some _ _ _ ?_
      rw [List.map_map]
      refine diagLoop_spec (m + 1) m 1 (m + 1) (by omega) ?_
      have hstep := pairsAux_drop (m + 1) m 0 (by omega)
      rw [Nat.sub_zero] at hstep
      exact hstep

/-! Helper lemmas about the group cache. -/

lemma findGroup_setGroup (l : List (Name × CollisionGroup)) (n : Name)
    (g g0 : CollisionGroup) (h : findGroup l n = some g0) :
    findGroup (setGroup l n g) n = some g := by
  induction l with
  | nil => simp [findGroup] at h
  | cons kg rest ih =>
    obtain ⟨k, g1⟩ := kg
    by_cases hk : k = n
    · simp [findGroup, setGroup, hk]
    · rw [findGroup, if_neg hk] at h
      rw [setGroup, if_neg hk, findGroup, if_neg hk]
      exact ih h

lemma keys_setGroup (l : List (Name × CollisionGroup)) (n : Name) (g : CollisionGroup) :
    (setGroup l n g).map Prod.fst = l.map Prod.fst := by
  induction l with
  | nil => rfl
  | cons kg rest ih =>
    obtain ⟨k, g1⟩ := kg
    by_cases hk : k = n
    · simp [setGroup, hk]
    · rw [setGroup, if_neg hk, List.map_cons, List.map_cons, ih]

lemma findGroup_append_self (l : List (Name × CollisionGroup)) (n : Name)
    (g : CollisionGroup) (h : findGroup l n = none) :
    findGroup (l ++ [(n, g)]) n = some g := by
  induction l with
  | nil => simp [findGroup]
  | cons kg rest ih =>
    obtain ⟨k, g1⟩ := kg
    by_cases hk : k = n
    · rw [findGroup, if_pos hk] at h
      exact absurd h (by simp)
    · rw [findGroup, if_neg hk] at h
      rw [List.cons_append, findGroup, if_neg hk]
      exact ih h

/-! Helper lemmas about suffix classification. -/

lemma charAt_append_two_left (pre : Name) (a b : Char) :
    charAt (pre ++ [a, b]) (((pre ++ [a, b]).length : Int) - 2) = some a := by
  have hl : (pre ++ [a, b]).length = pre.length + 2 := by simp
  rw [hl, charAt, if_pos (by push_cast; omega)]
  have ht : (((pre.length + 2 : Nat) : Int) - 2).toNat = pre.length := by
    push_cast
    omega
  rw [ht, List.getElem?_append_right (le_refl pre.length)]
  simp

lemma charAt_append_two_right (pre : Name) (a b : Char) :
    charAt (pre ++ [a, b]) (((pre ++ [a, b]).length : Int) - 1) = some b := by
  have hl : (pre ++ [a, b]).length = pre.length + 2 := by simp
  rw [hl, charAt, if_pos (by push_cast; omega)]
  have ht : (((pre.length + 2 : Nat) : Int) - 1).toNat = pre.length + 1 := by
    push_cast
    omega
  rw [ht, List.getElem?_append_right (by omega)]
  simp

lemma groupType_last_two (pre : Name) (a b : Char) :
    groupType (pre ++ [a, b]) =
      some (if a = 'e' then (if b = 'e' then .EE else if b = 'i' then .EI else .BAD_TYPE)
       else if a = 'i' then (if b = 'i' then .II else if b = 'j' then .IJ else .BAD_TYPE)
       else .BAD_TYPE) := by
  rw [groupType]
  simp only [charAt_append_two_left, charAt_append_two_right]

/-! Unfolding lemmas for the three reachable branches of group(). -/

lemma group_hit_eq (db : DBState) (th : Thermo) (eval : Name → Nat × Nat → ℝ → ℝ)
    (name : Name) (t : GroupType) (g : CollisionGroup) (hty : groupType name = some t)
    (hfind : findGroup db.groups name = some g) :
    group db th eval name =
      (.ok (g.update (tempFor t th) eval),
       { db with groups := setGroup db.groups name (g.update (tempFor t th) eval) }) := by
  simp only [group, hty, hfind]

lemma group_miss_eq (db : DBState) (th : Thermo) (eval : Name → Nat × Nat → ℝ → ℝ)
    (name : Name) (t : GroupType) (hty : groupType name = some t)
    (hbad : t ≠ GroupType.BAD_TYPE) (hmiss : findGroup db.groups name = none) :
    group db th eval name =
      (.ok ((newGroup db th name t).update (tempFor t th) eval),
       { db with groups :=
           db.groups ++ [(name, (newGroup db th name t).update (tempFor t th) eval)] }) := by
  simp only [group, hty, hmiss]
  rw [if_neg hbad]

lemma group_bad_eq (db : DBState) (th : Thermo) (eval : Name → Nat × Nat → ℝ → ℝ)
    (name : Name) (hty : groupType name = some .BAD_TYPE)
    (hmiss : findGroup db.groups name = none) :
    group db th eval name =
      (.fatal (name.drop (name.length - 2)) name allowedSuffixes, db) := by
  simp only [group, hty, hmiss, if_pos]

lemma constructionOk_true_iff (tmin tmax tdel : ℚ) :
    constructionOk true tmin tmax tdel = true ↔
      0 < tmin ∧ 0 < tmax ∧ 0 < tdel ∧ tmin < tmax ∧
        |(tmax - tmin) / tdel - (cppTrunc ((tmax - tmin) / tdel) : ℚ)| /
          ((tmax - tmin) / tdel) < 1 / 10 ^ 15 := by
  show tableChecks tmin tmax tdel = true ↔ _
  simp only [tableChecks, Bool.and_eq_true, decide_eq_true_eq]
  tauto

/-! The claims. -/

/-- Claim C5: for every species count ns the species-pair index has
exactly ns*(ns+1)/2 entries, contains precisely the pairs (i, j) with
i ≤ j < ns, and is enumerated in strictly increasing lexicographic
order (outer index ascending, inner index from the outer index
ascending). -/
theorem pairList_triangular (ns : Nat) :
    (pairList ns).length = ns * (ns + 1) / 2 ∧
    (∀ p : Nat × Nat, p ∈ pairList ns ↔ p.1 ≤ p.2 ∧ p.2 < ns) ∧
    List.Pairwise pairLt (pairList ns) := by
  refine ⟨pairsAux_length ns ns 0 (by omega), fun p => ?_, pairsAux_pairwise ns ns 0 (by omega)⟩
  rw [pairList, pairsAux_mem ns ns 0 (by omega)]
  simp

/-- Claim C1: on a cache miss, group(name) selects the members of the new
group from the species-pair index by type: EE takes the first e pairs,
EI the first e*ns pairs, IJ everything from index e*ns on, and II walks
the heavy block collecting exactly the ns-e diagonal pairs (i, i) for
i from e to ns-1 in ascending order into a separate member list. -/
theorem group_miss_member_selection (db : DBState) (th : Thermo)
    (eval : Name → Nat × Nat → ℝ → ℝ) (name : Name) (t : GroupType)
    (hty : groupType name = some t) (hbad : t ≠ GroupType.BAD_TYPE)
    (hmiss : findGroup db.groups name = none) :
    memberSelectionAt db th eval name t := by
  refine ⟨⟨(newGroup db th name t).update (tempFor t th) eval, ?_, rfl⟩,
    rfl, rfl, rfl, memberSelect_II th.ns th.hasE⟩
  rw [group_miss_eq db th eval name t hty hbad hmiss]

/-- Witness for C1: a fresh database over a three-species mixture with
electrons, asked for the group Q11ii. -/
theorem group_miss_member_selection_witness :
    groupType qiiName = some GroupType.II ∧ GroupType.II ≠ GroupType.BAD_TYPE ∧
    findGroup db0.groups qiiName = none ∧ memberSelectionAt db0 thW evalW qiiName .II :=
  ⟨by decide, by decide, rfl,
    group_miss_member_selection db0 thW evalW qiiName .II (by decide) (by decide) rfl⟩

/-- Counterexample for C3: the claim says a name shorter than two
characters classifies to the invalid type, but groupType reads
name[len-2], which for the one-character name e is the out-of-bounds
access name[-1] (undefined behavior, embedded as none), not a returned
BAD_TYPE. -/
theorem groupType_short_name_cex :
    groupType ['e'] = none ∧ groupType ['e'] ≠ some GroupType.BAD_TYPE :=
  ⟨by decide, by decide⟩

/-- Claim C3 (amended): for names of length at least two the classifier
maps suffix ee to EE, ei to EI, ii to II, ij to IJ and every other
two-character suffix to BAD_TYPE; for a name shorter than two characters
the classification reads out of bounds (undefined behavior, embedded as
none) instead of returning the invalid type. -/
theorem groupType_suffix_classification :
    (∀ pre : Name, groupType (pre ++ ['e', 'e']) = some GroupType.EE) ∧
    (∀ pre : Name, groupType (pre ++ ['e', 'i']) = some GroupType.EI) ∧
    (∀ pre : Name, groupType (pre ++ ['i', 'i']) = some GroupType.II) ∧
    (∀ pre : Name, groupType (pre ++ ['i', 'j']) = some GroupType.IJ) ∧
    (∀ (pre : Name) (a b : Char), [a, b] ∉ allowedSuffixes →
      groupType (pre ++ [a, b]) = some GroupType.BAD_TYPE) ∧
    (∀ n : Name, n.length < 2 → groupType n = none) := by
  refine ⟨fun pre => by rw [groupType_last_two]; decide,
    fun pre => by rw [groupType_last_two]; decide,
    fun pre => by rw [groupType_last_two]; decide,
    fun pre => by rw [groupType_last_two]; decide, ?_, ?_⟩
  · intro pre a b hmem
    rw [groupType_last_two]
    simp only [allowedSuffixes, List.mem_cons, List.not_mem_nil, or_false] at hmem
    push_neg at hmem
    obtain ⟨h1, h2, h3, h4⟩ := hmem
    by_cases ha : a = 'e'
    · subst ha
      rw [if_pos rfl]
      by_cases hb : b = 'e'
      · exact absurd (by rw [hb]) h1
      · rw [if_neg hb]
        by_cases hb2 : b = 'i'
        · exact absurd (by rw [hb2]) h2
        · rw [if_neg hb2]
    · rw [if_neg ha]
      by_cases hi : a = 'i'
      · subst hi
        rw [if_pos rfl]
        by_cases hb : b = 'i'
        · exact absurd (by rw [hb]) h3
        · rw [if_neg hb]
          by_cases hb2 : b = 'j'
          · exact absurd (by rw [hb2]) h4
          · rw [if_neg hb2]
      · rw [if_neg hi]
  · intro n hn
    match n, hn with
    | [], _ => rfl
    | [c], _ => rfl
    | a :: b :: l, hn => exact absurd hn (by simp only [List.length_cons]; omega)

/-- Witness for C3 (amended): concrete instances of each part. -/
theorem groupType_suffix_classification_witness :
    groupType (['Q'] ++ ['e', 'e']) = some GroupType.EE ∧
    (['x', 'y'] : Name) ∉ allowedSuffixes ∧
    groupType (([] : Name) ++ ['x', 'y']) = some GroupType.BAD_TYPE ∧
    (['z'] : Name).length < 2 ∧ groupType ['z'] = none :=
  ⟨groupType_suffix_classification.1 ['Q'], by decide,
    groupType_suffix_classification.2.2.2.2.1 [] 'x' 'y' (by decide), by decide,
    groupType_suffix_classification.2.2.2.2.2 ['z'] (by decide)⟩

/-- Claim C7: calling group() with a name whose two-character suffix is
not one of ee, ei, ii, ij is fatal: the call produces the diagnostic
naming the bad suffix, the offending name and the allowed suffix set,
and terminates the process (embedded as the non-recoverable fatal
outcome standing for exit(1)) instead of returning a group. -/
theorem group_invalid_suffix_fatal (db : DBState) (th : Thermo)
    (eval : Name → Nat × Nat → ℝ → ℝ) (name : Name)
    (hty : groupType name = some GroupType.BAD_TYPE)
    (hmiss : findGroup db.groups name = none) :
    group db th eval name =
      (.fatal (name.drop (name.length - 2)) name allowedSuffixes, db) ∧
    allowedSuffixes = [['e', 'e'], ['e', 'i'], ['i', 'i'], ['i', 'j']] :=
  ⟨group_bad_eq db th eval name hty hmiss, rfl⟩

/-- Witness for C7: the name Qxy on a fresh database. -/
theorem group_invalid_suffix_fatal_witness :
    groupType badName = some GroupType.BAD_TYPE ∧ findGroup db0.groups badName = none ∧
    (group db0 thW evalW badName =
      (.fatal (badName.drop (badName.length - 2)) badName allowedSuffixes, db0) ∧
     allowedSuffixes = [['e', 'e'], ['e', 'i'], ['i', 'i'], ['i', 'j']]) :=
  ⟨by decide, rfl, group_invalid_suffix_fatal db0 thW evalW badName (by decide) rfl⟩

/-- Claim C8: Dim() returns a zero array of length nSpecies regardless of
the database state (cache contents, configuration) and the thermodynamic
state's temperatures or species data. -/
theorem Dim_always_zero (db : DBState) (th : Thermo) :
    Dim db th = List.replicate th.ns (0 : ℝ) ∧ (Dim db th).length = th.ns ∧
      ∀ x ∈ Dim db th, x = 0 :=
  ⟨rfl, by simp [Dim], fun _ hx => List.eq_of_mem_replicate hx⟩

/-- Claim C9: with tabulation disabled the constructor performs no
validation of Tmin, Tmax or dT: construction succeeds for every
configuration, including non-positive bounds, Tmin at least Tmax, and a
non-integral grid span. -/
theorem no_checks_when_tabulation_disabled :
    (∀ tmin tmax tdel : ℚ, constructionOk false tmin tmax tdel = true) ∧
    constructionOk false (-300) (-1) 0 = true ∧
    constructionOk false 20000 300 100 = true ∧
    constructionOk false 300 20050 100 = true :=
  ⟨fun _ _ _ => rfl, rfl, rfl, rfl⟩

/-- Claim C10: a group name that is exactly a valid two-character suffix
is accepted by group(): it classifies to the corresponding type and the
empty string is passed on as the integral kind. -/
theorem group_bare_suffix_names (db : DBState) (th : Thermo)
    (eval : Name → Nat × Nat → ℝ → ℝ)
    (h1 : findGroup db.groups ['i', 'i'] = none)
    (h2 : findGroup db.groups ['e', 'e'] = none) :
    groupType ['i', 'i'] = some GroupType.II ∧ groupType ['e', 'e'] = some GroupType.EE ∧
    (∃ g, (group db th eval ['i', 'i']).1 = .ok g ∧ g.kind = []) ∧
    (∃ g, (group db th eval ['e', 'e']).1 = .ok g ∧ g.kind = []) := by
  refine ⟨by decide, by decide,
    ⟨(newGroup db th ['i', 'i'] .II).update (tempFor .II th) eval, ?_, rfl⟩,
    ⟨(newGroup db th ['e', 'e'] .EE).update (tempFor .EE th) eval, ?_, rfl⟩⟩
  · rw [group_miss_eq db th eval ['i', 'i'] .II (by decide) (by decide) h1]
  · rw [group_miss_eq db th eval ['e', 'e'] .EE (by decide) (by decide) h2]

/-- Witness for C10: the bare names ii and ee on a fresh database. -/
theorem group_bare_suffix_names_witness :
    findGroup db0.groups ['i', 'i'] = none ∧ findGroup db0.groups ['e', 'e'] = none ∧
    (groupType ['i', 'i'] = some GroupType.II ∧ groupType ['e', 'e'] = some GroupType.EE ∧
     (∃ g, (group db0 thW evalW ['i', 'i']).1 = .ok g ∧ g.kind = []) ∧
     (∃ g, (group db0 thW evalW ['e', 'e']).1 = .ok g ∧ g.kind = [])) :=
  ⟨rfl, rfl, group_bare_suffix_names db0 thW evalW rfl rfl⟩

/-- Claim C2: for a valid name, two successive group(name) calls return
the same cache entry (the second call finds and updates the entry stored
by the first; the key set does not grow), and on every call, hit or
miss, the group is evaluated at the electron temperature for EE and EI
and at the heavy temperature for II and IJ, so the returned values track
the thermodynamic state's current temperatures. -/
theorem group_cache_identity_stable (db : DBState) (th1 th2 : Thermo)
    (eval : Name → Nat × Nat → ℝ → ℝ) (name : Name) (t : GroupType)
    (hty : groupType name = some t) (hbad : t ≠ GroupType.BAD_TYPE) :
    cacheStableAt db th1 th2 eval name t := by
  have htemp1 : tempFor t th1 = (if t = .EE ∨ t = .EI then th1.Te else th1.T) := by
    cases t <;> simp [tempFor, GroupType.toNat]
  have htemp2 : tempFor t th2 = (if t = .EE ∨ t = .EI then th2.Te else th2.T) := by
    cases t <;> simp [tempFor, GroupType.toNat]
  cases hfind : findGroup db.groups name with
  | some g =>
    have hc1 := group_hit_eq db th1 eval name t g hty hfind
    have hf1 : findGroup (group db th1 eval name).2.groups name =
        some (g.update (tempFor t th1) eval) := by
      rw [hc1]
      exact findGroup_setGroup _ _ _ _ hfind
    have hc2 := group_hit_eq (group db th1 eval name).2 th2 eval name t
      (g.update (tempFor t th1) eval) hty hf1
    refine ⟨g.update (tempFor t th1) eval, ?_, hf1, rfl, ?_, ?_, ?_, rfl, rfl, rfl,
      htemp1, htemp2⟩
    · rw [hc1]
    · rw [hc2]
    · rw [hc2]
      exact findGroup_setGroup _ _ _ _ hf1
    · rw [hc2]
      exact keys_setGroup _ _ _
  | none =>
    have hc1 := group_miss_eq db th1 eval name t hty hbad hfind
    have hf1 : findGroup (group db th1 eval name).2.groups name =
        some ((newGroup db th1 name t).update (tempFor t th1) eval) := by
      rw [hc1]
      exact findGroup_append_self _ _ _ hfind
    have hc2 := group_hit_eq (group db th1 eval name).2 th2 eval name t
      ((newGroup db th1 name t).update (tempFor t th1) eval) hty hf1
    refine ⟨(newGroup db th1 name t).update (tempFor t th1) eval, ?_, hf1, rfl, ?_, ?_, ?_,
      rfl, rfl, rfl, htemp1, htemp2⟩
    · rw [hc1]
    · rw [hc2]
    · rw [hc2]
      exact findGroup_setGroup _ _ _ _ hf1
    · rw [hc2]
      exact keys_setGroup _ _ _

/-- Witness for C2: the name Q11ii asked for twice on a fresh database,
with the mixture at two different temperature states. -/
theorem group_cache_identity_stable_witness :
    groupType qiiName = some GroupType.II ∧ GroupType.II ≠ GroupType.BAD_TYPE ∧
    cacheStableAt db0 thW thW2 evalW qiiName .II :=
  ⟨by decide, by decide,
    group_cache_identity_stable db0 thW thW2 evalW qiiName .II (by decide) (by decide)⟩

/-- Counterexample for C4: the claim calls the configuration valid when
the grid span is a whole number within relative tolerance 1e-15, but for
Tmin = 300, Tmax = 20000 - 1e-12, dT = 100 the span 197 - 1e-14 is
within 1e-15 relative distance of the whole number 197 and construction
still fails, because the code measures the distance to the truncation
int(size) = 196 only. -/
theorem construction_span_tolerance_cex :
    constructionOk true 300 (20000 - 1 / 10 ^ 12) 100 = false ∧
    ¬ specTableInvalid 300 (20000 - 1 / 10 ^ 12) 100 := by
  have hsize : ((20000 - 1 / 10 ^ 12 : ℚ) - 300) / 100 = 197 - 1 / 10 ^ 14 := by norm_num
  constructor
  · rw [Bool.eq_false_iff, Ne, constructionOk_true_iff]
    rintro ⟨-, -, -, -, h5⟩
    rw [hsize, cppTrunc, if_pos (by norm_num),
      show ⌊(197 - 1 / 10 ^ 14 : ℚ)⌋ = 196 by norm_num,
      show (197 - 1 / 10 ^ 14 : ℚ) - ((196 : ℤ) : ℚ) = 1 - 1 / 10 ^ 14 by
        push_cast
        ring,
      abs_of_pos (by norm_num), div_lt_div_iff₀ (by norm_num) (by norm_num)] at h5
    norm_num at h5
  · rw [specTableInvalid]
    push_neg
    refine ⟨by norm_num, by norm_num, by norm_num, by norm_num, 197, ?_⟩
    rw [hsize, show (197 - 1 / 10 ^ 14 : ℚ) - ((197 : ℤ) : ℚ) = -(1 / 10 ^ 14) by
      push_cast
      ring]
    rw [abs_neg, abs_of_pos (by norm_num), div_lt_div_iff₀ (by norm_num) (by norm_num)]
    norm_num

/-- Claim C4 (amended): with tabulation enabled, construction fails
exactly when Tmin, Tmax or dT is non-positive, Tmin is at least Tmax, or
the grid span (Tmax - Tmin)/dT differs from its truncation toward zero
by at least 1e-15 relative to the span; in particular Tmin = 300,
Tmax = 20000, dT = 100 validates and Tmin = 300, Tmax = 20050, dT = 100
fails. -/
theorem construction_validation_amended :
    (∀ tmin tmax tdel : ℚ, constructionOk true tmin tmax tdel = false ↔
      tmin ≤ 0 ∨ tmax ≤ 0 ∨ tdel ≤ 0 ∨ tmax ≤ tmin ∨
        1 / 10 ^ 15 ≤
          |(tmax - tmin) / tdel - (cppTrunc ((tmax - tmin) / tdel) : ℚ)| /
            ((tmax - tmin) / tdel)) ∧
    constructionOk true 300 20000 100 = true ∧
    constructionOk true 300 20050 100 = false := by
  refine ⟨?_, ?_, ?_⟩
  · intro tmin tmax tdel
    rw [Bool.eq_false_iff, Ne, constructionOk_true_iff]
    simp only [not_and_or, not_lt]
  · rw [constructionOk_true_iff]
    refine ⟨by norm_num, by norm_num, by norm_num, by norm_num, ?_⟩
    rw [show ((20000 : ℚ) - 300) / 100 = 197 by norm_num, cppTrunc, if_pos (by norm_num),
      show ⌊(197 : ℚ)⌋ = 197 by norm_num]
    norm_num
  · rw [Bool.eq_false_iff, Ne, constructionOk_true_iff]
    rintro ⟨-, -, -, -, h5⟩
    rw [show ((20050 : ℚ) - 300) / 100 = 395 / 2 by norm_num, cppTrunc, if_pos (by norm_num),
      show ⌊(395 / 2 : ℚ)⌋ = 197 by norm_num,
      show (395 / 2 : ℚ) - ((197 : ℤ) : ℚ) = 1 / 2 by
        push_cast
        ring,
      abs_of_pos (by norm_num), div_lt_div_iff₀ (by norm_num) (by norm_num)] at h5
    norm_num at h5

/-- Claim C6: etai() returns, elementwise over heavy species, the square
root of the heavy temperature times the precomputed eta factor divided
by the Q22ii group value, where the factors come from the constructor
formula 5/16 * sqrt(PI * RU * Mw) on the molar mass of the species
offset by e, and the Q22ii values are the value array of
group(Q22ii). -/
theorem etai_groups_formula (PI RU : ℝ) (db : DBState) (th : Thermo)
    (eval : Name → Nat × Nat → ℝ → ℝ)
    (hmiss : findGroup db.groups q22iiName = none) :
    etaiFormulaAt PI RU db th eval := by
  have hty : groupType q22iiName = some .II := by decide
  have hc := group_miss_eq db th eval q22iiName .II hty (by decide) hmiss
  refine ⟨rfl, ?_, ?_⟩
  · intro j hj
    have he : th.ns - nHeavy th = eNat th := by
      have hpos : 0 < nHeavy th := Nat.pos_of_ne_zero (by omega)
      unfold nHeavy eNat at hpos ⊢
      cases th.hasE <;> simp at hpos ⊢
      omega
    rw [etafacList, List.getElem?_map, List.getElem?_range hj, he]
    rfl
  · rw [Q22ii, hc]
    show ((newGroup db th q22iiName .II).update (tempFor .II th) eval).values = _
    rw [CollisionGroup.update]
    show (memberSelect th.ns th.hasE .II).map
      (fun p => eval (q22iiName.take (q22iiName.length - 2)) p (tempFor .II th)) = _
    rw [memberSelect_II, List.map_map]
    rfl

/-- Witness for C6: a fresh database over the three-species mixture with
electrons and the identity correlation. -/
theorem etai_groups_formula_witness :
    findGroup db0.groups q22iiName = none ∧ etaiFormulaAt 3 8 db0 thW evalW :=
  ⟨rfl, etai_groups_formula 3 8 db0 thW evalW rfl⟩

end CollisionDBNew
